import Mathlib

/-!
Shallow embedding of the resilient batch-translation orchestration engine of
`src/main.ts` (vocab-ankisync-ai-translate), together with theorems settling
the frozen claims about it.

Conventions of the embedding:
* JS machine integers and `Date.now()` timestamps are modelled as `Nat`
  (JS `a - b` appears only in positions where the source guarantees
  non-negativity, or where clamping at zero coincides with the JS behaviour;
  each such spot is commented).
* Stateful classes become structures with explicit state-passing functions.
* `async`/`await` sleeps are not modelled as time passing; a function that in
  the source sleeps and retries instead returns a step outcome describing the
  wait, and loops are modelled as folds over explicit outcome sequences.
* JS strings are modelled as Lean `String`; `String.prototype.includes`,
  `trim`, `toLowerCase` are modelled by executable Lean counterparts
  (`strIncludes`, `strTrim`, `strToLower`).  `toLowerCase` differs
  from JS outside ASCII; every pattern the source matches against is ASCII.
-/

namespace VocabSync

/-! ## Error categories (src/main.ts lines 180-192)

`ERROR_CATEGORIES` is a fixed record of string constants; we model the
category as an inductive and keep the string values in `categoryName`. -/

inductive ErrorCategory where
  | model
  | json
  | rateLimit
  | network
  | server
  | parse
  | validation
  | capacity
  | modelCapacity
  deriving DecidableEq, BEq, Repr

def categoryName : ErrorCategory → String
  | .model => "model"
  | .json => "json"
  | .rateLimit => "rate_limit"
  | .network => "network"
  | .server => "server"
  | .parse => "parse"
  | .validation => "validation"
  | .capacity => "capacity"
  | .modelCapacity => "model_capacity"

/-! ## String containment (JS `String.prototype.includes`) -/

def charsStartWith : List Char → List Char → Bool
  | [], _ => true
  | _ :: _, [] => false
  | p :: ps, t :: ts => p == t && charsStartWith ps ts

def charsContain (text pat : List Char) : Bool :=
  match text with
  | [] => pat.isEmpty
  | _ :: ts => charsStartWith pat text || charsContain ts pat

def strIncludes (s pat : String) : Bool :=
  charsContain s.data pat.data

/-- JS `String.prototype.toLowerCase`.  `Char.toLower` only lowers ASCII;
every pattern the source compares against is ASCII, and cache keys are
compared with the same normalization on both ends.  Implemented structurally
so the kernel can evaluate it. -/
def strToLower (s : String) : String :=
  ⟨s.data.map Char.toLower⟩

/-- JS `String.prototype.trim`: strip whitespace from both ends. -/
def trimChars (cs : List Char) : List Char :=
  ((cs.dropWhile Char.isWhitespace).reverse.dropWhile Char.isWhitespace).reverse

def strTrim (s : String) : String :=
  ⟨trimChars s.data⟩

/-! ## Errors as seen by the classifier

A JS error value reaching `ErrorClassifier.categorizeError` carries a
free-form `message` and an optional numeric `status` (the source reads
`error.status || error.statusCode`; we merge the two fields). -/

structure JsError where
  message : String
  status : Option Nat
  deriving DecidableEq, BEq, Repr

/-- `ErrorClassifier.categorizeError` (src/main.ts lines 281-345): ordered
substring / status checks over the lowercased message, first match wins. -/
def categorizeError (e : JsError) : ErrorCategory :=
  let m := strToLower e.message
  if strIncludes m "over capacity" || strIncludes m "currently over capacity" ||
     strIncludes m "capacity exceeded" || strIncludes m "is currently over capacity" then
    .capacity
  else if (strIncludes m "model" && strIncludes m "capacity") ||
          (strIncludes m "llama" && strIncludes m "capacity") then
    .modelCapacity
  else if strIncludes m "model" || strIncludes m "does not exist" ||
          strIncludes m "not available" || strIncludes m "you do not have access" ||
          strIncludes m "model_not_available" || strIncludes m "model_required" then
    .model
  else if strIncludes m "rate limit" || strIncludes m "too many requests" ||
          strIncludes m "rate_limit" || e.status == some 429 then
    .rateLimit
  else if strIncludes m "json" || strIncludes m "parse" ||
          strIncludes m "invalid json" || strIncludes m "json_validate_failed" then
    .json
  else if strIncludes m "network" || strIncludes m "timeout" ||
          strIncludes m "fetch" || strIncludes m "connection" ||
          strIncludes m "aborted" then
    .network
  else if (match e.status with
           | some s => 500 ≤ s && s < 600
           | none => false) then
    .server
  else if strIncludes m "parsing" || strIncludes m "invalid response" ||
          strIncludes m "unexpected token" then
    .parse
  else if strIncludes m "valid" || strIncludes m "validation" ||
          strIncludes m "invalid" then
    .validation
  else
    .server

/-- `RetryPolicy` rows (src/main.ts lines 347-370).  `backoffMultiplier` is a
JS float used only to scale sleep durations; it is kept as ten times its
value (`backoffMulTimes10`) so the table stays integral. -/
structure RetryPolicy where
  retryable : Bool
  maxRetries : Nat
  backoffMulTimes10 : Nat
  deriving DecidableEq, Repr

def getErrorPolicy : ErrorCategory → RetryPolicy
  | .model => ⟨false, 0, 10⟩
  | .rateLimit => ⟨true, 2, 20⟩
  | .json => ⟨true, 1, 10⟩
  | .network => ⟨true, 3, 20⟩
  | .server => ⟨true, 2, 15⟩
  | .parse => ⟨true, 1, 10⟩
  | .validation => ⟨false, 0, 10⟩
  | .capacity => ⟨true, 2, 30⟩
  | .modelCapacity => ⟨true, 1, 50⟩

/-! ## Circuit breaker (src/main.ts lines 403-448) -/

inductive CBState where
  | closed
  | opened
  | halfOpen
  deriving DecidableEq, BEq, Repr

structure CircuitBreaker where
  failureCount : Nat
  lastFailureTime : Nat
  state : CBState
  deriving DecidableEq, Repr

def failureThreshold : Nat := 3

def resetTimeout : Nat := 30000

/-- `onSuccess` (lines 431-434). -/
def CircuitBreaker.onSuccess (cb : CircuitBreaker) : CircuitBreaker :=
  { cb with failureCount := 0, state := .closed }

/-- `onFailure` (lines 436-443): `now` is `Date.now()` at the failure. -/
def CircuitBreaker.onFailure (cb : CircuitBreaker) (now : Nat) : CircuitBreaker :=
  let fc := cb.failureCount + 1
  { failureCount := fc
    lastFailureTime := now
    state := if failureThreshold ≤ fc then .opened else cb.state }

/-- The entry gate of `execute` (lines 413-419): from OPEN, move to HALF_OPEN
when strictly more than `resetTimeout` ms elapsed since the last failure,
otherwise refuse to run the operation (second component `false`). -/
def CircuitBreaker.gate (cb : CircuitBreaker) (now : Nat) : CircuitBreaker × Bool :=
  match cb.state with
  | .opened =>
    if resetTimeout < now - cb.lastFailureTime then
      ({ cb with state := .halfOpen }, true)
    else
      (cb, false)
  | _ => (cb, true)

inductive ExecOutcome where
  | fastFail
  | opSuccess
  | opFailure
  deriving DecidableEq, Repr

/-- `execute` (lines 412-429).  The wrapped operation is abstracted by the
boolean `opSucceeds`; when the gate refuses, the operation is not consulted
and the breaker throws (`.fastFail`). -/
def CircuitBreaker.execute (cb : CircuitBreaker) (now : Nat) (opSucceeds : Bool) :
    CircuitBreaker × ExecOutcome :=
  let g := cb.gate now
  if g.2 then
    if opSucceeds then (g.1.onSuccess, .opSuccess)
    else (g.1.onFailure now, .opFailure)
  else
    (g.1, .fastFail)

def cbStep (cb : CircuitBreaker) (now : Nat) (opSucceeds : Bool) : CircuitBreaker :=
  (cb.execute now opSucceeds).1

/-- Initial breaker state (field initializers, lines 404-406). -/
def cbInit : CircuitBreaker := ⟨0, 0, .closed⟩

/-- States the breaker can be in at the start of some `execute` call of a run. -/
inductive CBReachable : CircuitBreaker → Prop where
  | init : CBReachable cbInit
  | step (cb : CircuitBreaker) (now : Nat) (b : Bool) :
      CBReachable cb → CBReachable (cbStep cb now b)

/-! ## Adaptive batch controller (src/main.ts lines 574-615) -/

structure AdaptiveBatchController where
  currentBatchSize : Nat
  maxBatchSize : Nat
  recentSuccesses : Nat
  recentFailures : Nat
  deriving DecidableEq, Repr

def windowSize : Nat := 5

def minBatchSize : Nat := 1

/-- `onSuccess` (lines 589-595). -/
def AdaptiveBatchController.onSuccess (c : AdaptiveBatchController) : AdaptiveBatchController :=
  let rs := c.recentSuccesses + 1
  if windowSize ≤ rs ∧ c.currentBatchSize < c.maxBatchSize then
    { c with currentBatchSize := min (c.currentBatchSize + 1) c.maxBatchSize
             recentSuccesses := 0 }
  else
    { c with recentSuccesses := rs }

/-- `onFailure` (lines 597-604).  `Math.floor(size * 0.7)` equals
`size * 7 / 10` in `Nat` for every size the controller can hold (the bound
is 20, far below where the float rounding of `0.7` could diverge). -/
def AdaptiveBatchController.onFailure (c : AdaptiveBatchController) : AdaptiveBatchController :=
  let rf := c.recentFailures + 1
  if 2 ≤ rf ∧ minBatchSize < c.currentBatchSize then
    { c with currentBatchSize := max (c.currentBatchSize * 7 / 10) minBatchSize
             recentSuccesses := 0
             recentFailures := 0 }
  else
    { c with recentSuccesses := 0, recentFailures := rf }

/-! ## Sliding-window rate limiter (src/main.ts lines 617-649) -/

def windowMs : Nat := 60000

/-- `cleanupOldRequests` (lines 636-638): keep timestamps strictly younger
than the window.  JS `now - time < windowMs` for a future `time` is a
negative number, hence kept; `Nat` truncation gives `0 < windowMs`, kept too. -/
def cleanupOldRequests (requests : List Nat) (now : Nat) : List Nat :=
  requests.filter (fun time => now - time < windowMs)

/-- `calculateWaitTime` (lines 640-644): the source reads `requests[0]` as the
oldest timestamp (timestamps are appended in call order, so the list is
ascending). -/
def calculateWaitTime (requests : List Nat) (now : Nat) : Nat :=
  match requests with
  | [] => 0
  | oldest :: _ => windowMs - (now - oldest)

/-- One pass of `acquireSlot` (lines 622-634).  `.wait d reqs` stands for
"sleep `d` ms (wait time plus the 100 ms safety margin) and recurse with the
purged list"; `.recorded reqs` stands for "push `now` and return". -/
inductive SlotStep where
  | wait (delayMs : Nat) (requests : List Nat)
  | recorded (requests : List Nat)
  deriving DecidableEq, Repr

def acquireSlotStep (requests : List Nat) (now maxRequests : Nat) : SlotStep :=
  let purged := cleanupOldRequests requests now
  if maxRequests ≤ purged.length then
    .wait (calculateWaitTime purged now + 100) purged
  else
    .recorded (purged ++ [now])

/-! ## Translation results and their validation (src/main.ts lines 17-22, 665-714) -/

structure GroqTranslationResult where
  translation : String
  definition : String
  exampleSource : String
  exampleTarget : String
  deriving DecidableEq, Repr

/-- Character class of the regex `[\s\.,;:!?\-()]` used to strip a definition
down to its non-trivial characters (line 676). -/
def isStrippedChar (c : Char) : Bool :=
  c.isWhitespace || c == '.' || c == ',' || c == ';' || c == ':' ||
  c == '!' || c == '?' || c == '-' || c == '(' || c == ')'

/-- `isValidTranslation` (lines 665-698).  JS falsiness of the empty string is
absorbed into the trim-length checks. -/
def isValidTranslation (result : GroqTranslationResult) : Bool :=
  if (strTrim result.translation).length < 1 then false
  else if (strTrim result.definition).length < 10 then false
  else if (result.definition.data.filter (fun c => !isStrippedChar c)).length < 5 then false
  else if strIncludes result.definition "، ." || strIncludes result.definition ", ." ||
          strTrim result.definition == "," || strTrim result.definition == "،" then false
  else if (strTrim result.exampleSource).length < 3 || (strTrim result.exampleTarget).length < 3 then false
  else true

/-- `isEmptyTranslation` / `isEmptyCacheEntry` (lines 709-714, 1894-1899):
the all-empty sentinel. -/
def isEmptyTranslation (result : GroqTranslationResult) : Bool :=
  strTrim result.translation == "" && strTrim result.definition == "" &&
  strTrim result.exampleSource == "" && strTrim result.exampleTarget == ""

/-! ## Result cache (src/main.ts lines 1549, 1876-1903) -/

structure CacheEntry where
  ts : Nat
  data : GroqTranslationResult
  deriving DecidableEq, Repr

/-- The cache store `Record<string, {ts, data}>`, modelled as a function from
keys to optional entries. -/
def CacheStore : Type := String → Option CacheEntry

/-- `getCachedResult` (lines 1876-1892).  Returns the looked-up result and the
store after the call (the call deletes the entry when it is expired).  The
source's `this.settings.cacheTTLHours ?? 24` default only fires for an absent
setting; the setting is always present here. -/
def getCachedResult (store : CacheStore) (cacheTTLHours now : Nat) (word : String) :
    Option GroqTranslationResult × CacheStore :=
  let key := strToLower word
  match store key with
  | none => (none, store)
  | some entry =>
    let ttlMs := cacheTTLHours * 3600000
    if ttlMs < now - entry.ts then
      (none, fun k => if k = key then none else store k)
    else if isEmptyTranslation entry.data then
      (none, store)
    else
      (some entry.data, store)

/-- `setCachedResult` (lines 1901-1904). -/
def setCachedResult (store : CacheStore) (now : Nat) (word : String)
    (data : GroqTranslationResult) : CacheStore :=
  fun k => if k = strToLower word then some ⟨now, data⟩ else store k

/-! ## Orchestrator word partitioning (src/main.ts lines 898-916, 1136-1155) -/

/-- The cache split at the head of `processWordsInBatches` (lines 898-906):
words with a valid cached result become hits, the rest go to `uncached`;
the store is threaded through because each lookup may evict an expired
entry.  Returns `(hits, uncached, store after the scan)`. -/
def splitByCache (store : CacheStore) (ttlH now : Nat) :
    List String → List (String × GroqTranslationResult) × List String × CacheStore
  | [] => ([], [], store)
  | w :: ws =>
    let looked := getCachedResult store ttlH now w
    match looked.1 with
    | some res =>
      if isValidTranslation res then
        let rest := splitByCache looked.2 ttlH now ws
        ((w, res) :: rest.1, rest.2.1, rest.2.2)
      else
        let rest := splitByCache looked.2 ttlH now ws
        (rest.1, w :: rest.2.1, rest.2.2)
    | none =>
      let rest := splitByCache looked.2 ttlH now ws
      (rest.1, w :: rest.2.1, rest.2.2)

/-- Word priority score (lines 1149-1153).  The non-ASCII test is the regex
`[^\x00-\x7F]`; `w.length` counts UTF-16 code units in JS and codepoints
here, which agree on all BMP strings and are both clamped at 100. -/
def score (w : String) : Nat :=
  (if w.data.any (fun c => 127 < c.toNat) then 1000 else 0) + min 100 w.length

/-- Stable insertion of a word into a list sorted by descending score. -/
def insertDesc (w : String) : List String → List String
  | [] => [w]
  | x :: xs => if score x < score w then w :: x :: xs else x :: insertDesc w xs

/-- `prioritizeWords` (lines 1149-1155): stable sort by descending score. -/
def prioritizeWords (words : List String) : List String :=
  words.foldr insertDesc []

/-- `createOptimizedBatches` (lines 1136-1147): chunk the word list into
batches of `batchSize`.  The source's `for` loop never runs with
`batchSize = 0` (adaptive sizes are ≥ 1); a zero size is mapped to no
batches to keep the function total. -/
def chunkList (n : Nat) (l : List String) : List (List String) :=
  match l with
  | [] => []
  | w :: ws =>
    if h : n = 0 then []
    else (w :: ws).take n :: chunkList n ((w :: ws).drop n)
termination_by l.length
decreasing_by
  simp only [List.length_drop, List.length_cons]
  omega

/-- The words of one batch that actually go out in the remote request: the
second cache check at the head of `processSingleBatchWithRetry`
(lines 1099-1110) removes freshly cached words again. -/
def requestWords (store : CacheStore) (ttlH now : Nat) (batch : List String) : List String :=
  (splitByCache store ttlH now batch).2.1

/-! ## Failover client: HTTP 429 branch (src/main.ts lines 1365-1403) -/

inductive RL429Outcome where
  | abortThreshold
  | retrySameEndpoint (waitMs newRpm : Nat)
  deriving DecidableEq, Repr

/-- The wait derived from a `try again in Ns` pattern in the error text
(lines 1373-1379): `parsedMs` is `Math.round(sec * 1000)` when the regex
matched with a numeric group, `none` otherwise; default 2000 ms, clamped to
[500, 10000]. -/
def retryWaitMs (parsedMs : Option Nat) : Nat :=
  match parsedMs with
  | none => 2000
  | some ms => max 500 (min 10000 ms)

/-- `Math.max(1, Math.floor(oldRpm * 0.8))` (line 1381); for the integral RPM
settings involved, `Math.floor(oldRpm * 0.8) = oldRpm * 4 / 5`. -/
def reducedRpm (oldRpm : Nat) : Nat :=
  max 1 (oldRpm * 4 / 5)

/-- The body of the `res.status === 429` branch (lines 1365-1403): increment
the session counter; if it reached the threshold of 1, throw
`RATE_LIMIT_THRESHOLD`; otherwise wait and retry the same endpoint with the
reduced RPM (only applied when actually lower).  Returns the outcome and the
new counter value. -/
def on429 (rateLimitErrorCount : Nat) (parsedMs : Option Nat) (oldRpm : Nat) :
    RL429Outcome × Nat :=
  let c := rateLimitErrorCount + 1
  if 1 ≤ c then
    (.abortThreshold, c)
  else
    (.retrySameEndpoint (retryWaitMs parsedMs)
      (if reducedRpm oldRpm < oldRpm then reducedRpm oldRpm else oldRpm), c)

/-! ## Failover client: JSON 400 branch (src/main.ts lines 1338-1363) -/

inductive Json400Action where
  | abortJsonThreshold
  | retryWithoutJsonFormat
  | fallThrough
  deriving DecidableEq, Repr

/-- The body of the `res.status === 400 && errorCategory === JSON` branch
(lines 1338-1363): increment the session counter; at 2, throw
`JSON_THRESHOLD`; otherwise, when this endpoint has not yet used its fallback
and the request's `useJSONFormat` is not already `false`, retry the same
endpoint once with `useJSONFormat := false`; otherwise fall through to the
remaining checks.  `useJSONFormatNotFalse` is the test
`currentBody.settings.useJSONFormat !== false`. -/
def onJson400 (jsonErrorCount : Nat) (attemptedJsonFallback useJSONFormatNotFalse : Bool) :
    Json400Action × Nat :=
  let c := jsonErrorCount + 1
  if 2 ≤ c then
    (.abortJsonThreshold, c)
  else if !attemptedJsonFallback && useJSONFormatNotFalse then
    (.retryWithoutJsonFormat, c)
  else
    (.fallThrough, c)

/-! ## Failover client: endpoint loop (src/main.ts lines 1294-1441) -/

structure EndpointError where
  url : String
  message : String
  category : ErrorCategory
  deriving DecidableEq, Repr

/-- What one endpoint attempt came to: a parsed success envelope (abstracted
as a string) or a thrown error. -/
inductive AttemptResult where
  | ok (data : String)
  | fail (err : JsError)
  deriving DecidableEq, Repr

/-- The rethrow test of the outer `catch` (lines 1425-1433): MODEL, CAPACITY
and MODEL_CAPACITY failures and the two threshold sentinels propagate
immediately instead of moving on to the next endpoint. -/
def isPropagateFailure (err : JsError) : Bool :=
  let category := categorizeError err
  category == .model || category == .capacity || category == .modelCapacity ||
  strIncludes err.message "RATE_LIMIT_THRESHOLD" ||
  strIncludes err.message "JSON_THRESHOLD"

inductive FailoverResult where
  | ok (url data : String)
  | propagated (err : JsError)
  | allFailed (thrownMessage : String) (loggedErrors : List EndpointError)
  deriving DecidableEq, Repr

/-- The endpoint loop of `postToWorkerWithFailover` driven by the per-endpoint
attempt outcomes.  Failures are pushed onto `errors` before the propagation
test (line 1422); when every endpoint has failed, the summary enumerating the
collected errors is logged, and the raised error carries only the constant
message (lines 1438-1440). -/
def failoverGo (errors : List EndpointError) :
    List (String × AttemptResult) → FailoverResult
  | [] => .allFailed "All worker endpoints failed" errors
  | (url, .ok data) :: _ => .ok url data
  | (url, .fail err) :: rest =>
    let errors := errors ++ [⟨url, err.message, categorizeError err⟩]
    if isPropagateFailure err then .propagated err
    else failoverGo errors rest

def postToWorkerWithFailover (attempts : List (String × AttemptResult)) : FailoverResult :=
  failoverGo [] attempts

/-- The summary string logged when every endpoint failed (line 1438). -/
def summaryLine (idx : Nat) (er : EndpointError) : String :=
  toString (idx + 1) ++ ") " ++ er.url ++ " -> " ++ er.message ++
  " [" ++ categoryName er.category ++ "]"

def renderSummary (errors : List EndpointError) : String :=
  String.intercalate "\n" (errors.enum.map (fun p => summaryLine p.1 p.2))

/-! ## Batch orchestrator loop (src/main.ts lines 918-1098) -/

/-- Outcome of one loop iteration's remote call for its batch. -/
inductive BatchOutcome where
  | ok (results : List (String × GroqTranslationResult))
  | fail (err : JsError)
  deriving DecidableEq, Repr

/-- Per-run orchestrator state relevant to the loop.  `persisted` is the last
snapshot flushed to the vocabulary table by `savePartialResultsToTable`
(persistence is modelled as always succeeding).  `errorRetryCounts` models
the `Map<ErrorCategory, number>`; an entry is overwritten by consing, with
`List.lookup` taking the first hit. -/
structure RunState where
  allResults : List (String × GroqTranslationResult)
  persisted : List (String × GroqTranslationResult)
  consecutiveNonModelFailures : Nat
  errorRetryCounts : List (ErrorCategory × Nat)
  failedWords : List String
  adaptive : Option AdaptiveBatchController
  deriving DecidableEq, Repr

def getRetryCount (m : List (ErrorCategory × Nat)) (cat : ErrorCategory) : Nat :=
  match m.lookup cat with
  | some n => n
  | none => 0

inductive RunResult where
  | completed (st : RunState)
  | aborted (reason : String) (st : RunState)
  deriving DecidableEq, Repr

/-- The batch loop of `processWordsInBatches` (lines 918-1080), driven by the
sequence of iteration outcomes (`i--` retries appear as further elements for
the same batch).  On success: merge results, persist the partial snapshot,
reset the consecutive-failure counter (lines 945-973).  On failure: flush the
accumulated results when non-empty (lines 982-991), then apply the
failure-tier policy (lines 993-1078). -/
def processLoop (cap : Nat) (st : RunState) :
    List (List String × BatchOutcome) → RunResult
  | [] => .completed st
  | (batch, .ok results) :: rest =>
    let merged := st.allResults ++ results
    processLoop cap
      { st with allResults := merged
                persisted := merged
                consecutiveNonModelFailures := 0 } rest
  | (batch, .fail err) :: rest =>
    let category := categorizeError err
    let st := if 0 < st.allResults.length then { st with persisted := st.allResults } else st
    let msg := err.message
    let isMixedScript := strIncludes msg "mixed-script validation" ||
      (strIncludes msg "All worker endpoints failed" &&
       strIncludes msg "mixed-script validation")
    if isMixedScript then
      processLoop cap
        { st with failedWords := st.failedWords ++ batch.map strToLower } rest
    else
      let isOperationWide := category == .server || strIncludes msg "Circuit breaker" ||
        (strIncludes msg "All worker endpoints failed" && !isMixedScript)
      if category == .model then
        .aborted ("Model error: " ++ msg) st
      else if strIncludes msg "JSON_THRESHOLD" || strIncludes msg "RATE_LIMIT_THRESHOLD" then
        .aborted ("Threshold abort: " ++ msg) st
      else if isOperationWide then
        .aborted ("Infrastructure error: " ++ msg) st
      else
        let policy := getErrorPolicy category
        let currentRetryCount := getRetryCount st.errorRetryCounts category
        if policy.retryable && currentRetryCount < policy.maxRetries then
          processLoop cap
            { st with errorRetryCounts := (category, currentRetryCount + 1) :: st.errorRetryCounts }
            rest
        else
          let st := { st with adaptive := st.adaptive.map AdaptiveBatchController.onFailure
                              consecutiveNonModelFailures := st.consecutiveNonModelFailures + 1 }
          if cap ≤ st.consecutiveNonModelFailures then
            .aborted "Non-model failure limit reached" st
          else
            processLoop cap st rest

/-! ## Concrete sample data used by witnesses -/

def sampleResult : GroqTranslationResult :=
  ⟨"hola", "a common greeting word", "hello there", "hola amigo"⟩

def sampleEntry : CacheEntry := ⟨0, sampleResult⟩

def sampleStore : CacheStore :=
  fun k => if k = "hello" then some sampleEntry else none

def sampleAttempts : List (List String × BatchOutcome) :=
  [(["hello"], .ok [("hello", sampleResult)]),
   (["world"], .fail ⟨"Model Not Available: boom", some 404⟩)]

def sampleInitState : RunState := ⟨[], [], 0, [], [], none⟩

def sampleFailures : List (String × JsError) :=
  [("https://a.example/", ⟨"fetch failed", none⟩),
   ("https://b.example/", ⟨"HTTP 500: oops", some 500⟩)]

/-! # Helper lemmas -/

/-- One `execute` step preserves the breaker invariant that OPEN or HALF_OPEN
states carry at least `failureThreshold` recorded failures. -/
theorem cbStep_preserves_inv (cb : CircuitBreaker) (now : Nat) (b : Bool)
    (h : cb.state = .opened ∨ cb.state = .halfOpen → failureThreshold ≤ cb.failureCount) :
    (cbStep cb now b).state = .opened ∨ (cbStep cb now b).state = .halfOpen →
      failureThreshold ≤ (cbStep cb now b).failureCount := by
  rcases cb with ⟨fc, lt, st⟩
  revert h
  cases st <;> cases b <;>
    simp [cbStep, CircuitBreaker.execute, CircuitBreaker.gate, CircuitBreaker.onSuccess,
      CircuitBreaker.onFailure, failureThreshold] <;>
    (try split_ifs) <;>
    (try simp_all) <;>
    (try omega)

/-- The breaker invariant holds in every reachable state. -/
theorem cbReachable_inv (cb : CircuitBreaker) (h : CBReachable cb) :
    cb.state = .opened ∨ cb.state = .halfOpen → failureThreshold ≤ cb.failureCount := by
  induction h with
  | init => intro hc; rcases hc with hc | hc <;> simp [cbInit] at hc
  | step cb now b _ ih => exact cbStep_preserves_inv cb now b ih

/-! # Claim theorems -/

/-- C10: in every reachable state of the circuit breaker, whenever the entry
gate of `execute` puts the breaker into HALF_OPEN for a probe, the failure
count is still at or above `failureThreshold` (it is not reset on the
OPEN→HALF_OPEN transition), so a single failure of the probe operation
returns the breaker directly to OPEN. -/
theorem halfOpen_probe_failure_reopens (cb : CircuitBreaker) (now : Nat)
    (hr : CBReachable cb) (hh : ((cb.gate now).1).state = .halfOpen) :
    failureThreshold ≤ ((cb.gate now).1).failureCount ∧
    ((cb.execute now false).1).state = .opened := by
  have hinv := cbReachable_inv cb hr
  rcases cb with ⟨fc, lt, st⟩
  cases st with
  | closed =>
    simp [CircuitBreaker.gate] at hh
  | opened =>
    have hfc : failureThreshold ≤ fc := hinv (Or.inl rfl)
    by_cases ht : resetTimeout < now - lt
    · constructor
      · simpa [CircuitBreaker.gate, ht] using hfc
      · simp [CircuitBreaker.execute, CircuitBreaker.gate, ht, CircuitBreaker.onFailure,
          failureThreshold] at hfc ⊢
        omega
    · simp [CircuitBreaker.gate, ht] at hh
  | halfOpen =>
    have hfc : failureThreshold ≤ fc := hinv (Or.inr rfl)
    constructor
    · simpa [CircuitBreaker.gate] using hfc
    · simp [CircuitBreaker.execute, CircuitBreaker.gate, CircuitBreaker.onFailure,
        failureThreshold] at hfc ⊢
      omega

/-- Witness for C10: the breaker state ⟨3, 10, OPEN⟩ is reachable (three
consecutive failures at time 10), and at time 40000 the gate half-opens it
with its failure count intact, so the failed probe re-opens it. -/
theorem halfOpen_probe_failure_reopens_witness :
    ((CircuitBreaker.gate ⟨3, 10, .opened⟩ 40000).1).state = .halfOpen ∧
    failureThreshold ≤ ((CircuitBreaker.gate ⟨3, 10, .opened⟩ 40000).1).failureCount ∧
    ((CircuitBreaker.execute ⟨3, 10, .opened⟩ 40000 false).1).state = .opened := by
  have hr : CBReachable ⟨3, 10, .opened⟩ := by
    have e : cbStep (cbStep (cbStep cbInit 10 false) 10 false) 10 false
        = ⟨3, 10, .opened⟩ := by decide
    exact e ▸ CBReachable.step _ 10 false
      (CBReachable.step _ 10 false (CBReachable.step _ 10 false CBReachable.init))
  have h := halfOpen_probe_failure_reopens ⟨3, 10, .opened⟩ 40000 hr (by decide)
  exact ⟨by decide, h.1, h.2⟩

/-- C2 counterexample: with the breaker OPEN and elapsed time since the last
failure exactly equal to `resetTimeout` (30000 ms), the claim says the
breaker moves to HALF_OPEN and attempts the operation; the code's strict
`>` comparison instead fails fast without invoking it. -/
theorem execute_at_exact_resetTimeout_failsFast :
    CircuitBreaker.execute ⟨3, 0, .opened⟩ 30000 true = (⟨3, 0, .opened⟩, .fastFail) ∧
    30000 - (0 : Nat) = resetTimeout := by
  exact ⟨by decide, by decide⟩

/-- C2 (amended): 3 consecutive failed operations move the breaker to OPEN;
while OPEN with elapsed-since-last-failure ≤ 30000 ms, `execute` fails fast
without invoking the operation (the result is `fastFail` for either value of
the operation, and the state is unchanged); while OPEN with elapsed
> 30000 ms, the state moves to HALF_OPEN and the operation is attempted; any
attempted success sets `failureCount` to 0 and the state to CLOSED.
(The claim's boundary `elapsed ≥ 30000 → HalfOpen` is corrected to the strict
inequality the code implements.) -/
theorem circuitBreaker_execute_behavior (cb : CircuitBreaker) (now t n1 n2 n3 : Nat) :
    (cbStep (cbStep (cbStep ⟨0, t, .closed⟩ n1 false) n2 false) n3 false).state = .opened
    ∧ (cb.state = .opened → now - cb.lastFailureTime ≤ resetTimeout →
        ∀ b, cb.execute now b = (cb, .fastFail))
    ∧ (cb.state = .opened → resetTimeout < now - cb.lastFailureTime →
        ((cb.gate now).1.state = .halfOpen ∧
         (cb.execute now false).2 = .opFailure ∧
         cb.execute now true = ({ cb with failureCount := 0, state := .closed }, .opSuccess)))
    ∧ (∀ (cb' : CircuitBreaker) (now' : Nat),
        (cb'.execute now' true).2 = .opSuccess →
          (cb'.execute now' true).1.failureCount = 0 ∧
          (cb'.execute now' true).1.state = .closed) := by
  refine ⟨?_, ?_, ?_, ?_⟩
  · simp [cbStep, CircuitBreaker.execute, CircuitBreaker.gate, CircuitBreaker.onFailure,
      failureThreshold]
  · rcases cb with ⟨fc, lt, st⟩
    intro hs hle b
    have hs' : st = .opened := hs
    have hle' : now - lt ≤ resetTimeout := hle
    subst hs'
    have hnot : ¬ resetTimeout < now - lt := by omega
    simp [CircuitBreaker.execute, CircuitBreaker.gate, hnot]
  · rcases cb with ⟨fc, lt, st⟩
    intro hs hlt
    have hs' : st = .opened := hs
    have hlt' : resetTimeout < now - lt := hlt
    subst hs'
    simp [CircuitBreaker.execute, CircuitBreaker.gate, hlt', CircuitBreaker.onSuccess]
  · intro cb' now' hres
    rcases cb' with ⟨fc, lt, st⟩
    cases st <;>
      simp [CircuitBreaker.execute, CircuitBreaker.gate, CircuitBreaker.onSuccess] at hres ⊢ <;>
      split_ifs at hres ⊢ <;> simp_all

/-- Witness for C2 (amended): a concrete fail-fast at elapsed 100 ms and a
concrete OPEN state after three failures. -/
theorem circuitBreaker_execute_behavior_witness :
    CircuitBreaker.execute ⟨3, 0, .opened⟩ 100 true = (⟨3, 0, .opened⟩, .fastFail) ∧
    (cbStep (cbStep (cbStep ⟨0, 0, .closed⟩ 5 false) 6 false) 7 false).state = .opened := by
  obtain ⟨h1, h2, h3, h4⟩ := circuitBreaker_execute_behavior ⟨3, 0, .opened⟩ 100 0 5 6 7
  exact ⟨h2 rfl (by decide) true, h1⟩

/-- C8: starting from any size `s ∈ [1, 20]` with fresh counters, 5
consecutive `onSuccess` calls set the batch size to `min (s+1) 20` — an
increase by exactly 1 whenever `s < 20`, never exceeding 20 — and 2
consecutive `onFailure` calls shrink it to `max (s*7/10) 1` (that is,
`floor(s·0.7)` floored at 1), never going below 1; every `onFailure` resets
the success counter. -/
theorem adaptiveBatch_grow_and_shrink (s : Nat) (h1 : 1 ≤ s) (h2 : s ≤ 20) :
    ((((((⟨s, 20, 0, 0⟩ : AdaptiveBatchController).onSuccess).onSuccess).onSuccess).onSuccess).onSuccess).currentBatchSize
        = min (s + 1) 20
    ∧ (s < 20 →
        ((((((⟨s, 20, 0, 0⟩ : AdaptiveBatchController).onSuccess).onSuccess).onSuccess).onSuccess).onSuccess).currentBatchSize
          = s + 1)
    ∧ ((((((⟨s, 20, 0, 0⟩ : AdaptiveBatchController).onSuccess).onSuccess).onSuccess).onSuccess).onSuccess).currentBatchSize ≤ 20
    ∧ (((⟨s, 20, 0, 0⟩ : AdaptiveBatchController).onFailure).onFailure).currentBatchSize
        = max (s * 7 / 10) 1
    ∧ 1 ≤ (((⟨s, 20, 0, 0⟩ : AdaptiveBatchController).onFailure).onFailure).currentBatchSize
    ∧ ∀ c : AdaptiveBatchController, (c.onFailure).recentSuccesses = 0 := by
  have hgrow :
      ((((((⟨s, 20, 0, 0⟩ : AdaptiveBatchController).onSuccess).onSuccess).onSuccess).onSuccess).onSuccess).currentBatchSize
        = min (s + 1) 20 := by
    by_cases hs : s < 20 <;>
      simp [AdaptiveBatchController.onSuccess, windowSize, hs] <;> omega
  have hshrink :
      (((⟨s, 20, 0, 0⟩ : AdaptiveBatchController).onFailure).onFailure).currentBatchSize
        = max (s * 7 / 10) 1 := by
    by_cases hs : 1 < s
    · simp [AdaptiveBatchController.onFailure, minBatchSize, hs]
    · have hs1 : s = 1 := by omega
      subst hs1
      decide
  refine ⟨hgrow, ?_, ?_, hshrink, ?_, ?_⟩
  · intro hs; rw [hgrow]; omega
  · rw [hgrow]; omega
  · rw [hshrink]; omega
  · intro c
    simp only [AdaptiveBatchController.onFailure]
    split_ifs <;> rfl

/-- Witness for C8: the growth and shrink formulas at size 5. -/
theorem adaptiveBatch_grow_and_shrink_witness :
    ((((((⟨5, 20, 0, 0⟩ : AdaptiveBatchController).onSuccess).onSuccess).onSuccess).onSuccess).onSuccess).currentBatchSize = min (5 + 1) 20
    ∧ (((⟨5, 20, 0, 0⟩ : AdaptiveBatchController).onFailure).onFailure).currentBatchSize = max (5 * 7 / 10) 1 := by
  obtain ⟨hg, _, _, hs, _, _⟩ := adaptiveBatch_grow_and_shrink 5 (by decide) (by decide)
  exact ⟨hg, hs⟩

/-- C9: `acquireSlot` first purges timestamps older than the 60000 ms window;
with the ceiling `n` reached after the purge it sleeps
`60000 − (now − oldest) + 100` ms and retries instead of recording, so while
at least `n` recorded timestamps are all still inside the window no new
timestamp is recorded; below the ceiling it records `now`.  The purge
preserves the ascending order under which the head of the list is the oldest
timestamp. -/
theorem acquireSlot_behavior (requests : List Nat) (now n : Nat) :
    (∀ oldest rest, cleanupOldRequests requests now = oldest :: rest →
        n ≤ (oldest :: rest).length →
        acquireSlotStep requests now n =
          .wait (windowMs - (now - oldest) + 100) (oldest :: rest))
    ∧ ((cleanupOldRequests requests now).length < n →
        acquireSlotStep requests now n =
          .recorded (cleanupOldRequests requests now ++ [now]))
    ∧ (n ≤ requests.length → (∀ t ∈ requests, now - t < windowMs) →
        ∀ l, acquireSlotStep requests now n ≠ .recorded l)
    ∧ (List.Pairwise (· ≤ ·) requests →
        List.Pairwise (· ≤ ·) (cleanupOldRequests requests now)) := by
  refine ⟨?_, ?_, ?_, ?_⟩
  · intro oldest rest he hn
    have hn2 : n ≤ rest.length + 1 := by simpa using hn
    simp [acquireSlotStep, he, hn2, calculateWaitTime]
  · intro hlt
    simp [acquireSlotStep]
    omega
  · intro hn hin l
    have hself : cleanupOldRequests requests now = requests := by
      unfold cleanupOldRequests
      refine List.filter_eq_self.mpr ?_
      intro t ht
      simpa using hin t ht
    simp [acquireSlotStep, hself, hn]
  · intro hp
    exact hp.sublist (List.filter_sublist _)

/-- Witness for C9: three timestamps at time 0 with ceiling 3 produce a wait
of 60100 ms and no recording; a single in-window timestamp below the ceiling
records the current time. -/
theorem acquireSlot_behavior_witness :
    acquireSlotStep [0, 0, 0] 0 3 = .wait 60100 [0, 0, 0] ∧
    acquireSlotStep [0] 50 3 = .recorded [0, 50] := by
  obtain ⟨h1, _, _, _⟩ := acquireSlot_behavior [0, 0, 0] 0 3
  obtain ⟨_, g2, _, _⟩ := acquireSlot_behavior [0] 50 3
  constructor
  · rw [h1 0 [0, 0] (by decide) (by decide)]; decide
  · rw [g2 (by decide)]; decide

/-- A fresh, non-sentinel cache hit returns the stored result untouched. -/
theorem getCachedResult_hit (store : CacheStore) (ttlH now : Nat) (w : String) (e : CacheEntry)
    (hs : store (strToLower w) = some e) (hfresh : ¬ ttlH * 3600000 < now - e.ts)
    (hne : isEmptyTranslation e.data = false) :
    getCachedResult store ttlH now w = (some e.data, store) := by
  simp [getCachedResult, hs, hfresh, hne]

/-- A lookup never removes a fresh entry from the store (only the expired
entry under the looked-up key is ever deleted). -/
theorem getCachedResult_preserves (store : CacheStore) (ttlH now : Nat) (w k : String)
    (e : CacheEntry) (hk : store k = some e) (hfresh : ¬ ttlH * 3600000 < now - e.ts) :
    (getCachedResult store ttlH now w).2 k = some e := by
  cases hw : store (strToLower w) with
  | none => simp [getCachedResult, hw, hk]
  | some entry =>
    by_cases hexp : ttlH * 3600000 < now - entry.ts
    · by_cases hkey : k = strToLower w
      · exfalso
        rw [hkey, hw] at hk
        exact hfresh ((Option.some.inj hk) ▸ hexp)
      · simp [getCachedResult, hw, hexp, hkey, hk]
    · by_cases hempty : isEmptyTranslation entry.data = true <;>
        simp [getCachedResult, hw, hexp, hempty, hk]

/-- Through the cache split of `processWordsInBatches`, a word with a fresh,
non-sentinel, valid cache entry keeps its entry in the threaded store, lands
in the hit list on each of its occurrences, and never lands in the uncached
list. -/
theorem splitByCache_cached (ttlH now : Nat) (W : String) (e : CacheEntry)
    (hfresh : ¬ ttlH * 3600000 < now - e.ts)
    (hne : isEmptyTranslation e.data = false)
    (hval : isValidTranslation e.data = true) :
    ∀ (words : List String) (store : CacheStore), store (strToLower W) = some e →
      (splitByCache store ttlH now words).2.2 (strToLower W) = some e ∧
      (W ∈ words → (W, e.data) ∈ (splitByCache store ttlH now words).1) ∧
      W ∉ (splitByCache store ttlH now words).2.1 := by
  intro words
  induction words with
  | nil =>
    intro store hs
    refine ⟨by simpa [splitByCache] using hs, by simp, by simp [splitByCache]⟩
  | cons w ws ih =>
    intro store hs
    have hpres : (getCachedResult store ttlH now w).2 (strToLower W) = some e :=
      getCachedResult_preserves store ttlH now w (strToLower W) e hs hfresh
    have IH := ih (getCachedResult store ttlH now w).2 hpres
    by_cases hwW : w = W
    · subst hwW
      have hw : getCachedResult store ttlH now w = (some e.data, store) :=
        getCachedResult_hit store ttlH now w e hs hfresh hne
      have hst : (getCachedResult store ttlH now w).2 = store := by rw [hw]
      rw [hst] at IH
      simp only [splitByCache]
      rw [hw]
      simp only [hval, if_true]
      exact ⟨IH.1, fun _ => by simp, IH.2.2⟩
    · cases hr : (getCachedResult store ttlH now w).1 with
      | some res =>
        by_cases hv : isValidTranslation res = true
        · simp only [splitByCache, hr, hv, if_true]
          refine ⟨IH.1, ?_, IH.2.2⟩
          intro hmem
          rcases List.mem_cons.mp hmem with rfl | hmem2
          · exact absurd rfl hwW
          · exact List.mem_cons_of_mem _ (IH.2.1 hmem2)
        · simp only [splitByCache, hr, hv, if_false, Bool.not_eq_true]
          refine ⟨IH.1, ?_, ?_⟩
          · intro hmem
            rcases List.mem_cons.mp hmem with rfl | hmem2
            · exact absurd rfl hwW
            · exact IH.2.1 hmem2
          · intro hmem
            rcases List.mem_cons.mp hmem with rfl | hmem2
            · exact hwW rfl
            · exact IH.2.2 hmem2
      | none =>
        simp only [splitByCache, hr]
        refine ⟨IH.1, ?_, ?_⟩
        · intro hmem
          rcases List.mem_cons.mp hmem with rfl | hmem2
          · exact absurd rfl hwW
          · exact IH.2.1 hmem2
        · intro hmem
          rcases List.mem_cons.mp hmem with rfl | hmem2
          · exact hwW rfl
          · exact IH.2.2 hmem2

theorem mem_insertDesc (a w : String) (l : List String) :
    a ∈ insertDesc w l ↔ a = w ∨ a ∈ l := by
  induction l with
  | nil => simp [insertDesc]
  | cons x xs ih =>
    simp only [insertDesc]
    split_ifs with h
    · simp [List.mem_cons]
    · simp only [List.mem_cons, ih]
      tauto

theorem mem_prioritizeWords (a : String) (l : List String) :
    a ∈ prioritizeWords l ↔ a ∈ l := by
  induction l with
  | nil => simp [prioritizeWords]
  | cons w ws ih =>
    simp only [prioritizeWords, List.foldr] at ih ⊢
    rw [mem_insertDesc]
    simp [ih]

theorem chunkList_mem_bounded (n k : Nat) :
    ∀ l : List String, l.length ≤ k → ∀ b ∈ chunkList n l, ∀ x ∈ b, x ∈ l := by
  induction k with
  | zero =>
    intro l hl b hb x hx
    have hnil : l = [] := List.eq_nil_of_length_eq_zero (Nat.le_zero.mp hl)
    subst hnil
    simp [chunkList] at hb
  | succ k ih =>
    intro l hl b hb x hx
    cases l with
    | nil => simp [chunkList] at hb
    | cons w ws =>
      rw [chunkList] at hb
      by_cases hn : n = 0
      · rw [dif_pos hn] at hb
        simp at hb
      · rw [dif_neg hn] at hb
        rcases List.mem_cons.mp hb with rfl | hb2
        · exact List.take_subset _ _ hx
        · have hl2 : ws.length + 1 ≤ k + 1 := by simpa using hl
          have hd : ((w :: ws).drop n).length ≤ k := by
            simp only [List.length_drop, List.length_cons]
            omega
          exact List.drop_subset _ _ (ih _ hd b hb2 x hx)

/-- Membership in a batch implies membership in the chunked word list. -/
theorem chunkList_mem (n : Nat) (l : List String) :
    ∀ b ∈ chunkList n l, ∀ x ∈ b, x ∈ l :=
  chunkList_mem_bounded n l.length l (Nat.le_refl _)

/-- The uncached part of the cache split is a subset of the scanned words. -/
theorem splitByCache_uncached_sub (ttlH now : Nat) :
    ∀ (words : List String) (store : CacheStore),
      (splitByCache store ttlH now words).2.1 ⊆ words := by
  intro words
  induction words with
  | nil => intro store; simp [splitByCache]
  | cons w ws ih =>
    intro store
    cases hr : (getCachedResult store ttlH now w).1 with
    | some res =>
      by_cases hv : isValidTranslation res = true
      · simp only [splitByCache, hr, hv, if_true]
        exact fun x hx => List.mem_cons_of_mem _ (ih _ hx)
      · simp only [splitByCache, hr, hv, if_false, Bool.not_eq_true]
        intro x hx
        rcases List.mem_cons.mp hx with rfl | hx2
        · exact List.mem_cons_self _ _
        · exact List.mem_cons_of_mem _ (ih _ hx2)
    | none =>
      simp only [splitByCache, hr]
      intro x hx
      rcases List.mem_cons.mp hx with rfl | hx2
      · exact List.mem_cons_self _ _
      · exact List.mem_cons_of_mem _ (ih _ hx2)

/-- C7: `getCachedResult` normalizes the key by lowercasing; it is a miss when
the entry is absent, when `now − entry.ts` exceeds `cacheTTLHours × 3600000`
ms (in which case the expired entry is deleted from the store and every other
key is untouched), and when the stored result is the all-empty sentinel;
otherwise the stored result is returned and the store is unchanged. -/
theorem getCachedResult_cases (store : CacheStore) (ttlH now : Nat) (w : String) :
    (store (strToLower w) = none → getCachedResult store ttlH now w = (none, store))
    ∧ (∀ e, store (strToLower w) = some e → ttlH * 3600000 < now - e.ts →
        (getCachedResult store ttlH now w).1 = none ∧
        (getCachedResult store ttlH now w).2 (strToLower w) = none ∧
        ∀ k, k ≠ strToLower w → (getCachedResult store ttlH now w).2 k = store k)
    ∧ (∀ e, store (strToLower w) = some e → ¬ ttlH * 3600000 < now - e.ts →
        isEmptyTranslation e.data = true →
        getCachedResult store ttlH now w = (none, store))
    ∧ (∀ e, store (strToLower w) = some e → ¬ ttlH * 3600000 < now - e.ts →
        isEmptyTranslation e.data = false →
        getCachedResult store ttlH now w = (some e.data, store)) := by
  refine ⟨?_, ?_, ?_, ?_⟩
  · intro h
    simp [getCachedResult, h]
  · intro e he hexp
    refine ⟨?_, ?_, ?_⟩
    · simp [getCachedResult, he, hexp]
    · simp [getCachedResult, he, hexp]
    · intro k hk
      simp [getCachedResult, he, hexp, hk]
  · intro e he hexp hempty
    simp [getCachedResult, he, hexp, hempty]
  · intro e he hexp hempty
    simp [getCachedResult, he, hexp, hempty]

/-- Witness for C7: a fresh valid entry under key `"hello"` is served for the
word `"Hello"`; at a later time the same entry is expired, the lookup misses
and the entry is deleted. -/
theorem getCachedResult_cases_witness :
    getCachedResult sampleStore 24 1000 "Hello" = (some sampleEntry.data, sampleStore)
    ∧ (getCachedResult sampleStore 24 100000000 "Hello").1 = none
    ∧ (getCachedResult sampleStore 24 100000000 "Hello").2 (strToLower "Hello") = none := by
  obtain ⟨_, _, _, c4⟩ := getCachedResult_cases sampleStore 24 1000 "Hello"
  obtain ⟨_, c2, _, _⟩ := getCachedResult_cases sampleStore 24 100000000 "Hello"
  have h1 := c4 sampleEntry (by decide) (by decide) (by decide)
  have h2 := c2 sampleEntry (by decide) (by decide)
  exact ⟨h1, h2.1, h2.2.1⟩

/-- C3: for every word `W` in the input list that has a cache entry which is
valid (per `isValidTranslation`), not the all-empty sentinel and not older
than the TTL, the run serves `W` from the cache (it lands in the hit list
with the cached result) and `W` is never included in any outgoing remote
translation request: it is in no batch built from the uncached words, and the
per-batch re-check of `processSingleBatchWithRetry` sends only words of the
batch, so `W` is absent from every request's word list. -/
theorem cachedWord_neverSent (store : CacheStore) (ttlH now : Nat)
    (words : List String) (W : String) (e : CacheEntry)
    (hmem : W ∈ words)
    (hentry : store (strToLower W) = some e)
    (hfresh : ¬ ttlH * 3600000 < now - e.ts)
    (hne : isEmptyTranslation e.data = false)
    (hval : isValidTranslation e.data = true) :
    (W, e.data) ∈ (splitByCache store ttlH now words).1
    ∧ W ∉ (splitByCache store ttlH now words).2.1
    ∧ (∀ n b, b ∈ chunkList n (prioritizeWords (splitByCache store ttlH now words).2.1) →
        W ∉ b)
    ∧ (∀ (store₂ : CacheStore) (ttlH₂ now₂ n : Nat) (b : List String),
        b ∈ chunkList n (prioritizeWords (splitByCache store ttlH now words).2.1) →
        W ∉ requestWords store₂ ttlH₂ now₂ b) := by
  obtain ⟨_, hhit, hnot⟩ :=
    splitByCache_cached ttlH now W e hfresh hne hval words store hentry
  have hbatch : ∀ n b, b ∈ chunkList n (prioritizeWords (splitByCache store ttlH now words).2.1) →
      W ∉ b := by
    intro n b hb hWb
    exact hnot ((mem_prioritizeWords W _).mp (chunkList_mem n _ b hb W hWb))
  refine ⟨hhit hmem, hnot, hbatch, ?_⟩
  intro store₂ ttlH₂ now₂ n b hb hWreq
  exact hbatch n b hb (splitByCache_uncached_sub ttlH₂ now₂ b store₂ hWreq)

/-- Witness for C3: with `"hello"` freshly cached and valid, processing
`["hello", "world"]` serves `"hello"` from the cache and leaves it out of the
uncached list. -/
theorem cachedWord_neverSent_witness :
    ("hello", sampleEntry.data) ∈ (splitByCache sampleStore 24 1000 ["hello", "world"]).1
    ∧ "hello" ∉ (splitByCache sampleStore 24 1000 ["hello", "world"]).2.1 := by
  have h := cachedWord_neverSent sampleStore 24 1000 ["hello", "world"] "hello" sampleEntry
    (by decide) (by decide) (by decide) (by decide) (by decide)
  exact ⟨h.1, h.2.1⟩

/-- C6: whenever the batch loop aborts the run (model error, threshold
sentinel, operation-wide failure, or the consecutive-failure cap), the
partial results accumulated from earlier successful batches have been flushed
to persistence before the failure is surfaced: at the abort, the persisted
snapshot equals the whole accumulated result list (or nothing had been
accumulated at all, and there was nothing to flush). -/
theorem abortFlushesAccumulated (cap : Nat) :
    ∀ (attempts : List (List String × BatchOutcome)) (st₀ st : RunState) (r : String),
      processLoop cap st₀ attempts = .aborted r st →
      st.allResults = [] ∨ st.persisted = st.allResults := by
  intro attempts
  induction attempts with
  | nil =>
    intro st₀ st r h
    simp [processLoop] at h
  | cons a rest ih =>
    intro st₀ st r h
    obtain ⟨batch, outcome⟩ := a
    cases outcome with
    | ok results =>
      simp only [processLoop] at h
      exact ih _ _ _ h
    | fail err =>
      simp only [processLoop] at h
      split_ifs at h <;>
        first
          | exact ih _ _ _ h
          | (injection h with hr hst
             subst hst
             first
               | exact Or.inr rfl
               | (left
                  have hlen : st₀.allResults.length = 0 := by omega
                  exact List.length_eq_zero.mp hlen))

/-- Witness for C6 (the spec's MODEL-on-batch-2 scenario): batch 1 succeeds,
batch 2 fails with a MODEL-category error; the run aborts immediately and the
batch-1 results are persisted. -/
theorem abortFlushesAccumulated_witness :
    processLoop 3 sampleInitState sampleAttempts =
      .aborted "Model error: Model Not Available: boom"
        ⟨[("hello", sampleResult)], [("hello", sampleResult)], 0, [], [], none⟩
    ∧ ((⟨[("hello", sampleResult)], [("hello", sampleResult)], 0, [], [], none⟩ :
          RunState).allResults = [] ∨
       (⟨[("hello", sampleResult)], [("hello", sampleResult)], 0, [], [], none⟩ :
          RunState).persisted =
       (⟨[("hello", sampleResult)], [("hello", sampleResult)], 0, [], [], none⟩ :
          RunState).allResults) := by
  have h : processLoop 3 sampleInitState sampleAttempts =
      .aborted "Model error: Model Not Available: boom"
        ⟨[("hello", sampleResult)], [("hello", sampleResult)], 0, [], [], none⟩ := by
    decide
  exact ⟨h, abortFlushesAccumulated 3 sampleAttempts sampleInitState _ _ h⟩

/-- C1 counterexample: on the very first HTTP 429 of a run (session counter
still 0), the claim says the failover client retries the same endpoint once
(a `retrySameEndpoint` outcome) and only a second 429 aborts; the code
increments the counter and compares it against a threshold of 1, which the
first 429 already meets, so it aborts with `RATE_LIMIT_THRESHOLD` at once. -/
theorem first429AlreadyAborts :
    on429 0 none 15 = (.abortThreshold, 1) := by decide

/-- C1 (amended): within one run, every HTTP 429 response — already the first
one — increments the session rate-limit counter and immediately aborts the
whole operation with the `RATE_LIMIT_THRESHOLD` sentinel (the code's
increment-then-`≥ 1` check fires on any count); the same-endpoint retry after
a parsed wait, and the 20% RPM reduction, are unreachable. -/
theorem on429_always_aborts (rateLimitErrorCount : Nat) (parsedMs : Option Nat) (rpm : Nat) :
    on429 rateLimitErrorCount parsedMs rpm = (.abortThreshold, rateLimitErrorCount + 1) := by
  unfold on429
  rw [if_pos (Nat.le_add_left 1 rateLimitErrorCount)]

/-- C4: the HTTP 400 JSON branch increments the session JSON-error counter on
every hit; when the counter reaches 2 the whole operation aborts with the
`JSON_THRESHOLD` sentinel; on the first occurrence in a session (counter 0,
fallback unused, `useJSONFormat` not already false) the same endpoint is
retried once with `useJSONFormat` disabled; once the fallback is spent the
branch falls through to the next endpoint instead of retrying again. -/
theorem json400_threshold_behavior (c : Nat) (a u : Bool) :
    (1 ≤ c → onJson400 c a u = (.abortJsonThreshold, c + 1))
    ∧ onJson400 0 false true = (.retryWithoutJsonFormat, 1)
    ∧ onJson400 0 true u = (.fallThrough, 1)
    ∧ (onJson400 c a u).2 = c + 1 := by
  refine ⟨?_, rfl, rfl, ?_⟩
  · intro h
    unfold onJson400
    rw [if_pos (by omega)]
  · unfold onJson400
    by_cases h2 : 2 ≤ c + 1 <;> by_cases h3 : (!a && u) = true <;> simp [h2, h3]

/-- Witness for C4: the first JSON 400 retries without JSON format, the
second aborts with the threshold sentinel. -/
theorem json400_threshold_behavior_witness :
    onJson400 1 false true = (.abortJsonThreshold, 2) ∧
    onJson400 0 false true = (.retryWithoutJsonFormat, 1) := by
  obtain ⟨h1, h2, _, _⟩ := json400_threshold_behavior 1 false true
  exact ⟨h1 (Nat.le_refl 1), h2⟩

/-- The endpoint loop on a list of all-failing, non-propagating attempts
collects every endpoint's message and category and ends in the `allFailed`
outcome whose raised message is the constant string. -/
theorem failoverGo_allFailed (failures : List (String × JsError)) :
    ∀ errors, (∀ p ∈ failures, isPropagateFailure p.2 = false) →
      failoverGo errors (failures.map (fun p => (p.1, .fail p.2))) =
        .allFailed "All worker endpoints failed"
          (errors ++ failures.map (fun p => ⟨p.1, p.2.message, categorizeError p.2⟩)) := by
  induction failures with
  | nil =>
    intro errors _
    simp [failoverGo]
  | cons p ps ih =>
    intro errors h
    obtain ⟨url, err⟩ := p
    have hp : isPropagateFailure err = false := h (url, err) (List.mem_cons_self _ _)
    simp only [List.map_cons, failoverGo, hp, Bool.false_eq_true, if_false]
    rw [ih _ (fun q hq => h q (List.mem_cons_of_mem _ hq))]
    simp [List.append_assoc]

/-- C5 counterexample: with a single endpoint failing with a network error,
the failover client raises the failure `"All worker endpoints failed"`, whose
message does not enumerate (or even mention) the endpoint's error message or
category — the enumeration only goes to the log. -/
theorem allFailed_raise_lacks_enumeration :
    postToWorkerWithFailover [("https://a.example/", .fail ⟨"fetch failed", none⟩)] =
      .allFailed "All worker endpoints failed"
        [⟨"https://a.example/", "fetch failed", .network⟩]
    ∧ strIncludes "All worker endpoints failed" "fetch failed" = false
    ∧ strIncludes "All worker endpoints failed" "network" = false := by
  decide

/-- C5 (amended): when every endpoint in the ordered list has been tried and
failed (with errors that do not short-circuit the loop), the failover client
records an aggregate of each endpoint's error message and error category —
which is logged as the failure summary — and raises a failure whose own
message is the constant `"All worker endpoints failed"`; the enumeration is
in the logged aggregate, not in the raised error. -/
theorem allEndpointsFailed_aggregate (failures : List (String × JsError))
    (h : ∀ p ∈ failures, isPropagateFailure p.2 = false) :
    postToWorkerWithFailover (failures.map (fun p => (p.1, .fail p.2))) =
      .allFailed "All worker endpoints failed"
        (failures.map (fun p => ⟨p.1, p.2.message, categorizeError p.2⟩)) := by
  have := failoverGo_allFailed failures [] h
  simpa [postToWorkerWithFailover] using this

/-- Witness for C5 (amended): two failing endpoints produce the aggregate
with both messages and categories, under the constant raised message. -/
theorem allEndpointsFailed_aggregate_witness :
    postToWorkerWithFailover (sampleFailures.map (fun p => (p.1, .fail p.2))) =
      .allFailed "All worker endpoints failed"
        [⟨"https://a.example/", "fetch failed", .network⟩,
         ⟨"https://b.example/", "HTTP 500: oops", .server⟩] := by
  have h : ∀ p ∈ sampleFailures, isPropagateFailure p.2 = false := by
    intro p hp
    simp only [sampleFailures, List.mem_cons, List.not_mem_nil, or_false] at hp
    rcases hp with rfl | rfl <;> decide
  rw [allEndpointsFailed_aggregate sampleFailures h]
  decide

end VocabSync
